import Mathlib

/-!
Shallow embedding of the evaluation runner of `packages/eval/src/eval/main.py`
(class `EloEvalRunner`) together with the judge-decision data model of
`packages/eval/src/eval/judge.py`.  Pure data is modelled by Lean structures,
the async fan-out / fan-in of `run_pairwise_comparison_async` by an explicit
list of per-round results whose completion order is an arbitrary permutation,
and logging side effects by explicit log-message lists threaded through the
state.
-/

namespace EvalMain

/-- Structure `QA` of main.py: one answer record loaded from a JSONL line. -/
structure QA where
  question_id : String
  question : String
  response : String
deriving DecidableEq, Repr

/-- The `winner` literal of `JudgeDecision` in judge.py: "A", "B" or "Tie". -/
inductive Winner
  | A
  | B
  | Tie
deriving DecidableEq, Repr

/-- Structure `JudgeDecision` of judge.py. -/
structure JudgeDecision where
  winner : Winner
  explanation : String
deriving DecidableEq, Repr

/-- Indexing `qa[i]` in the comparison loop; indices are always `< min` of the lengths,
so the default is never observed in the modelled executions. -/
def qaGet (l : List QA) (i : Nat) : QA :=
  l.getD i ⟨"", "", ""⟩

/-- The judge as used by the runner: `judge_async(question, response_a,
response_b)`, a deterministic remote call returning a decision or failing
with an exception message. -/
def Judge : Type :=
  String → String → String → Except String JudgeDecision

/-- The value returned by one `run_round(i, swapped)` task:
`(i, swapped, decision | None, err | None)`. -/
structure RoundResult where
  i : Nat
  swapped : Bool
  decision : Option JudgeDecision
  err : Option String
deriving DecidableEq, Repr

/-- The judge invocation inside `run_round`: natural order passes
`(question, response_a, response_b)`, swapped order passes
`(question, response_b, response_a)`; the question always comes from
participant A's record. -/
def judgeCall (judge : Judge) (qa_a qa_b : List QA) (i : Nat) (swapped : Bool) :
    Except String JudgeDecision :=
  let question := (qaGet qa_a i).question
  let response_a := (qaGet qa_a i).response
  let response_b := (qaGet qa_b i).response
  if swapped then judge question response_b response_a
  else judge question response_a response_b

/-- Function `run_round(i, swapped)`: any exception from the judge call is caught and
returned as `(i, swapped, None, str(e))`; success returns
`(i, swapped, decision, None)`. -/
def runRound (judge : Judge) (qa_a qa_b : List QA) (i : Nat) (swapped : Bool) :
    RoundResult :=
  match judgeCall judge qa_a qa_b i swapped with
  | .ok d => ⟨i, swapped, some d, none⟩
  | .error e => ⟨i, swapped, none, some e⟩

/-- The tasks created for the first `n` question indices:
`[run_round(i, swapped) for i in range(n) for swapped in (False, True)]`. -/
def tasksUpTo (judge : Judge) (qa_a qa_b : List QA) (n : Nat) : List RoundResult :=
  (List.range n).flatMap fun i => [runRound judge qa_a qa_b i false, runRound judge qa_a qa_b i true]

/-- All tasks of one pair: `n = min(len(qa_a), len(qa_b))`. -/
def taskResults (judge : Judge) (qa_a qa_b : List QA) : List RoundResult :=
  tasksUpTo judge qa_a qa_b (min qa_a.length qa_b.length)

/-- The Python sort key `(x[0], x[1])` on `(i, swapped, ...)` tuples, with
`False < True`, collapsed into one natural number. -/
def key (r : RoundResult) : Nat :=
  2 * r.i + (if r.swapped then 1 else 0)

/-- The comparison used by `round_results.sort(key=lambda x: (x[0], x[1]))`. -/
def roundLE (a b : RoundResult) : Bool :=
  key a ≤ key b

/-- The in-place `round_results.sort(key=lambda x: (x[0], x[1]))`. -/
def sortRounds (l : List RoundResult) : List RoundResult :=
  l.mergeSort roundLE

/-- One entry of the `results` list of `run_pairwise_comparison_async`
(the per-question dict); `real_winner` is present only for swapped entries. -/
structure CompResult where
  question_id : String
  model_a : String
  model_b : String
  response_a : String
  response_b : String
  judge_decision : Winner
  judge_explanation : String
  swapped : Bool
  real_winner : Option String
deriving DecidableEq, Repr

/-- Modelled from the spec: `eval/elo.py` (`EloRatingSystem`) is not among the
sources; only its call interface `update(name_a, name_b, score_a)` with
`score_a ∈ {0, 0.5, 1}` and its append-only per-call history are needed here,
so the engine state is modelled as the chronological trace of update calls
(each call appends exactly one history record). -/
structure EloUpdate where
  name_a : String
  name_b : String
  score_a : Rat
deriving DecidableEq, Repr

/-- One logger message relevant to the claims (structured instead of the
formatted string). -/
inductive LogMsg
  | inputNotDir
  | fewerThanTwo
  | mismatch (name_a name_b : String) (len_a len_b : Nat)
  | scoringFailed (first second question_id : String) (swapped : Bool) (err : Option String)
  | loadSkipped (file : String) (line_num : Nat)
deriving DecidableEq, Repr

/-- The mutable state threaded through one run: the accumulated comparison
results, the Rating Engine trace, and the emitted log messages. -/
structure EvalState where
  results : List CompResult
  trace : List EloUpdate
  logs : List LogMsg
deriving DecidableEq, Repr

/-- Method `_score_from_winner`: "A" ↦ 1.0, "B" ↦ 0.0, otherwise 0.5. -/
def scoreFromWinner : Winner → Rat
  | .A => 1
  | .B => 0
  | .Tie => 1 / 2

/-- The pair context of `run_pairwise_comparison_async`. -/
structure Ctx where
  name_a : String
  name_b : String
  qa_a : List QA
  qa_b : List QA

/-- Python truthiness of the `err` string in `if err or decision is None`. -/
def truthyErr : Option String → Bool
  | some s => s != ""
  | none => false

/-- The body of the canonical-order loop of `run_pairwise_comparison_async`
for one entry `(i, swapped, decision, err)`: skip-and-log on failure,
otherwise apply the rating update and append one comparison result. -/
def processOne (ctx : Ctx) (st : EvalState) (r : RoundResult) : EvalState :=
  let question_id :=
    if r.swapped then (qaGet ctx.qa_b r.i).question_id else (qaGet ctx.qa_a r.i).question_id
  let response_a := (qaGet ctx.qa_a r.i).response
  let response_b := (qaGet ctx.qa_b r.i).response
  match r.decision with
  | none =>
      { st with logs := st.logs ++
          [.scoringFailed (if r.swapped then ctx.name_b else ctx.name_a)
            (if r.swapped then ctx.name_a else ctx.name_b) question_id r.swapped r.err] }
  | some d =>
      if truthyErr r.err then
        { st with logs := st.logs ++
            [.scoringFailed (if r.swapped then ctx.name_b else ctx.name_a)
              (if r.swapped then ctx.name_a else ctx.name_b) question_id r.swapped r.err] }
      else if r.swapped = false then
        let score_a := scoreFromWinner d.winner
        { st with
          trace := st.trace ++ [⟨ctx.name_a, ctx.name_b, score_a⟩],
          results := st.results ++
            [⟨question_id, ctx.name_a, ctx.name_b, response_a, response_b,
              d.winner, d.explanation, false, none⟩] }
      else
        let score_a : Rat :=
          match d.winner with
          | .A => 0
          | .B => 1
          | .Tie => 1 / 2
        let real_winner : String :=
          match d.winner with
          | .A => "B"
          | .B => "A"
          | .Tie => "Tie"
        { st with
          trace := st.trace ++ [⟨ctx.name_a, ctx.name_b, score_a⟩],
          results := st.results ++
            [⟨question_id, ctx.name_b, ctx.name_a, response_b, response_a,
              d.winner, d.explanation, true, some real_winner⟩] }

/-- The canonical-order loop `for i, swapped, decision, err in round_results`. -/
def processRounds (ctx : Ctx) (st : EvalState) (rounds : List RoundResult) : EvalState :=
  rounds.foldl (processOne ctx) st

/-- The warning of lines 121-124: emitted exactly when the two answer lists
have different lengths. -/
def mismatchWarning (name_a name_b : String) (qa_a qa_b : List QA) : List LogMsg :=
  if qa_a.length ≠ qa_b.length then [.mismatch name_a name_b qa_a.length qa_b.length] else []

/-- The fan-in half of `run_pairwise_comparison_async`: given the gathered
round results in some completion order, sort them into canonical order and
process them sequentially. -/
def runPairwiseFrom (ctx : Ctx) (st : EvalState) (round_results : List RoundResult) :
    EvalState :=
  processRounds ctx st (sortRounds round_results)

/-- Method `run_pairwise_comparison_async` for one pair: warn on a length mismatch,
issue the `2 * min` judge calls, then fan in deterministically. -/
def runPairwise (judge : Judge) (name_a : String) (qa_a : List QA)
    (name_b : String) (qa_b : List QA) (st : EvalState) : EvalState :=
  runPairwiseFrom ⟨name_a, name_b, qa_a, qa_b⟩
    { st with logs := st.logs ++ mismatchWarning name_a name_b qa_a qa_b }
    (taskResults judge qa_a qa_b)

/-- One physical line of a JSONL input file, as seen by `load_model_outputs`:
blank after stripping, not parseable as a JSON object (`json.loads` or the
subsequent field access raises), or an object line carrying the three looked-up
fields, where `none` models an absent key (so `data.get(k, "")` yields `""`)
and `some s` the string the present value coerces to. -/
inductive Line
  | blank
  | invalid (msg : String)
  | record (question_id question response : Option String)
deriving DecidableEq, Repr

/-- The `ValueError` raised by `load_model_outputs`: it names the file and the
1-based line number of the offending line. -/
structure LoadError where
  file : String
  line_num : Nat
  msg : String
deriving DecidableEq, Repr

/-- Coercion `str(data.get(k, ""))` for a field modelled as `Option String`. -/
def fieldStr (o : Option String) : String :=
  o.getD ""

/-- The per-line loop of `load_model_outputs`, starting at line number `ln`:
blank lines are skipped, an unparsable line aborts the whole load with a
`LoadError`, a record with a missing or empty field is skipped with a warning,
and a complete record is appended. -/
def loadLines (file : String) (ln : Nat) :
    List Line → Except LoadError (List QA × List LogMsg)
  | [] => .ok ([], [])
  | l :: rest =>
    match l with
    | .blank => loadLines file (ln + 1) rest
    | .invalid msg => .error ⟨file, ln, msg⟩
    | .record qid q resp =>
      let question_id := fieldStr qid
      let question := fieldStr q
      let response := fieldStr resp
      if question_id = "" ∨ question = "" ∨ response = "" then
        (loadLines file (ln + 1) rest).map fun p => (p.1, .loadSkipped file ln :: p.2)
      else
        (loadLines file (ln + 1) rest).map fun p =>
          (⟨question_id, question, response⟩ :: p.1, p.2)

/-- Method `load_model_outputs(file_path)`: line numbering starts at 1
(`enumerate(f, 1)`). -/
def loadModelOutputs (file : String) (lines : List Line) :
    Except LoadError (List QA × List LogMsg) :=
  loadLines file 1 lines

/-- The pair enumeration `itertools.combinations(model_files, 2)` on a list. -/
def pairsOf {α : Type} : List α → List (α × α)
  | [] => []
  | x :: xs => xs.map (fun y => (x, y)) ++ pairsOf xs

/-- An input file as discovered by the glob: its stem (used as the model name
and as the identifier in load errors) and its lines. -/
def ModelFile : Type :=
  String × List Line

/-- The loading cache `loaded_models`: load a file only if its stem is not cached. -/
def getOrLoad (cache : List (String × List QA)) (f : ModelFile) :
    Except LoadError (List (String × List QA) × List QA) :=
  match cache.find? (fun p => p.1 == f.1) with
  | some p => .ok (cache, p.2)
  | none =>
      (loadModelOutputs f.1 f.2).map fun r => (cache ++ [(f.1, r.1)], r.1)

/-- The sequential loop over all pairs: load both sides through the cache
(a `ValueError` from loading propagates and aborts the run), then run the
pairwise comparison, accumulating results, rating updates and logs. -/
def runPairs (judge : Judge) :
    List (ModelFile × ModelFile) → List (String × List QA) → EvalState →
    Except LoadError EvalState
  | [], _, st => .ok st
  | (fa, fb) :: rest, cache, st => do
    let (cache1, qa_a) ← getOrLoad cache fa
    let (cache2, qa_b) ← getOrLoad cache1 fb
    runPairs judge rest cache2 (runPairwise judge fa.1 qa_a fb.1 qa_b st)

/-- The content of one report artifact, modelled as the data it serializes;
the leaderboard is a function of the rating engine's final state, hence of
the update trace. -/
inductive FileContent
  | pairwiseResults (rs : List CompResult)
  | eloHistory (tr : List EloUpdate)
  | leaderboard (tr : List EloUpdate)
deriving DecidableEq, Repr

/-- The report directory as a list of (file name, content) entries. -/
abbrev ReportDir : Type :=
  List (String × FileContent)

/-- The environment of one `process_evaluations_async` invocation:
whether `input_path` is a directory, the discovered `*.jsonl` files in glob
order, and the report directory argument together with its pre-run contents
(`none` when no report directory is given). -/
structure RunEnv where
  input_is_dir : Bool
  files : List ModelFile
  report_dir : Option ReportDir

/-- The observable outcome of a run that did not raise: the final report
directory contents (`none` when no report directory was given) and the final
in-memory state. -/
structure RunOutput where
  reportDir : Option ReportDir
  state : EvalState
deriving DecidableEq, Repr

/-- Method `process_evaluations_async(input_path, report_dir)`: clear and recreate
the report directory first; bail out (gracefully, returning `None`) when the
input is not a directory or holds fewer than two `*.jsonl` files; otherwise
run all pairs sequentially and finally write the three artifacts.  A raised
`ValueError` from loading propagates as `.error` (non-zero termination of
`main`). -/
def processEvaluations (judge : Judge) (env : RunEnv) : Except LoadError RunOutput :=
  let dir0 : Option ReportDir := env.report_dir.map fun _ => []
  if env.input_is_dir = false then
    .ok ⟨dir0, ⟨[], [], [.inputNotDir]⟩⟩
  else if env.files.length < 2 then
    .ok ⟨dir0, ⟨[], [], [.fewerThanTwo]⟩⟩
  else
    match runPairs judge (pairsOf env.files) [] ⟨[], [], []⟩ with
    | .error e => .error e
    | .ok st =>
        .ok ⟨dir0.map fun _ =>
              [("pairwise_results.jsonl", FileContent.pairwiseResults st.results),
               ("elo_history.jsonl", FileContent.eloHistory st.trace),
               ("leaderboard.json", FileContent.leaderboard st.trace)],
             st⟩

/-! ### Helper lemmas about the fan-in sort -/

theorem runRound_i (judge : Judge) (qa_a qa_b : List QA) (i : Nat) (sw : Bool) :
    (runRound judge qa_a qa_b i sw).i = i := by
  unfold runRound
  cases judgeCall judge qa_a qa_b i sw <;> rfl

theorem runRound_swapped (judge : Judge) (qa_a qa_b : List QA) (i : Nat) (sw : Bool) :
    (runRound judge qa_a qa_b i sw).swapped = sw := by
  unfold runRound
  cases judgeCall judge qa_a qa_b i sw <;> rfl

theorem key_runRound (judge : Judge) (qa_a qa_b : List QA) (i : Nat) (sw : Bool) :
    key (runRound judge qa_a qa_b i sw) = 2 * i + (if sw then 1 else 0) := by
  unfold key
  rw [runRound_i, runRound_swapped]

theorem key_runRound_false (judge : Judge) (qa_a qa_b : List QA) (i : Nat) :
    key (runRound judge qa_a qa_b i false) = 2 * i := by
  rw [key_runRound]
  simp

theorem key_runRound_true (judge : Judge) (qa_a qa_b : List QA) (i : Nat) :
    key (runRound judge qa_a qa_b i true) = 2 * i + 1 := by
  rw [key_runRound]
  simp

theorem tasksUpTo_succ (judge : Judge) (qa_a qa_b : List QA) (n : Nat) :
    tasksUpTo judge qa_a qa_b (n + 1) =
      tasksUpTo judge qa_a qa_b n ++
        [runRound judge qa_a qa_b n false, runRound judge qa_a qa_b n true] := by
  unfold tasksUpTo
  rw [List.range_succ, List.flatMap_append]
  simp

theorem key_lt_of_mem_tasksUpTo {judge : Judge} {qa_a qa_b : List QA} {n : Nat}
    {r : RoundResult} (h : r ∈ tasksUpTo judge qa_a qa_b n) : key r < 2 * n := by
  unfold tasksUpTo at h
  rcases List.mem_flatMap.mp h with ⟨i, hi, hr⟩
  have hilt : i < n := List.mem_range.mp hi
  rcases List.mem_cons.mp hr with h1 | h2
  · rw [h1, key_runRound_false]
    omega
  · rcases List.mem_cons.mp h2 with h3 | h4
    · rw [h3, key_runRound_true]
      omega
    · exact absurd h4 (List.not_mem_nil r)

theorem pairwise_key_lt_tasksUpTo (judge : Judge) (qa_a qa_b : List QA) (n : Nat) :
    (tasksUpTo judge qa_a qa_b n).Pairwise (fun x y => key x < key y) := by
  induction n with
  | zero => simp [tasksUpTo]
  | succ m ih =>
    rw [tasksUpTo_succ]
    rw [List.pairwise_append]
    refine ⟨ih, ?_, ?_⟩
    · refine List.pairwise_pair.mpr ?_
      rw [key_runRound_false, key_runRound_true]
      omega
    · intro a ha b hb
      have h1 := key_lt_of_mem_tasksUpTo ha
      have h2 : 2 * m ≤ key b := by
        rcases List.mem_cons.mp hb with hb1 | hb2
        · rw [hb1, key_runRound_false]
        · rcases List.mem_cons.mp hb2 with hb3 | hb4
          · rw [hb3, key_runRound_true]
            omega
          · exact absurd hb4 (List.not_mem_nil b)
      omega

theorem pairwise_key_lt_taskResults (judge : Judge) (qa_a qa_b : List QA) :
    (taskResults judge qa_a qa_b).Pairwise (fun x y => key x < key y) :=
  pairwise_key_lt_tasksUpTo judge qa_a qa_b _

/-- Any list sorted by the fan-in comparison and containing the same results
as a strictly key-sorted canonical list is that canonical list. -/
theorem sortRounds_eq_of_perm {l c : List RoundResult} (hperm : l.Perm c)
    (hc : c.Pairwise (fun x y => key x < key y)) : sortRounds l = c := by
  have hperm1 : (sortRounds l).Perm c := (List.mergeSort_perm l roundLE).trans hperm
  have hle : (sortRounds l).Pairwise fun x y => roundLE x y := by
    exact List.sorted_mergeSort
      (by intro a b c hab hbc; simp only [roundLE, decide_eq_true_eq] at *; omega)
      (by intro a b; simp only [roundLE, Bool.or_eq_true, decide_eq_true_eq]; omega) l
  have hne : (sortRounds l).Pairwise fun x y => key x ≠ key y := by
    have hcne : c.Pairwise fun x y => key x ≠ key y :=
      hc.imp fun h => Nat.ne_of_lt h
    exact (List.Perm.pairwise_iff (fun h => Ne.symm h) hperm1).mpr hcne
  have hlt : (sortRounds l).Pairwise fun x y => key x < key y := by
    have := hle.and hne
    exact this.imp fun h => by
      rcases h with ⟨h1, h2⟩
      simp only [roundLE, decide_eq_true_eq] at h1
      omega
  haveI : IsAntisymm RoundResult (fun x y => key x < key y) :=
    ⟨fun a b h1 h2 => absurd (h1.trans h2) (lt_irrefl _)⟩
  exact List.eq_of_perm_of_sorted hperm1 hlt hc

/-- The fan-in sort recovers the canonical task list from any completion
order. -/
theorem sortRounds_eq_taskResults {judge : Judge} {qa_a qa_b : List QA}
    {l : List RoundResult} (h : l.Perm (taskResults judge qa_a qa_b)) :
    sortRounds l = taskResults judge qa_a qa_b :=
  sortRounds_eq_of_perm h (pairwise_key_lt_taskResults judge qa_a qa_b)

/-- The canonical task list is a fixed point of the fan-in sort. -/
theorem sortRounds_taskResults (judge : Judge) (qa_a qa_b : List QA) :
    sortRounds (taskResults judge qa_a qa_b) = taskResults judge qa_a qa_b :=
  sortRounds_eq_taskResults (List.Perm.refl _)

/-- Method `run_pairwise_comparison_async` with the sort already discharged: the
canonical task list is processed directly. -/
theorem runPairwise_eq (judge : Judge) (name_a : String) (qa_a : List QA)
    (name_b : String) (qa_b : List QA) (st : EvalState) :
    runPairwise judge name_a qa_a name_b qa_b st =
      processRounds ⟨name_a, name_b, qa_a, qa_b⟩
        { st with logs := st.logs ++ mismatchWarning name_a name_b qa_a qa_b }
        (taskResults judge qa_a qa_b) := by
  unfold runPairwise runPairwiseFrom
  rw [sortRounds_taskResults]

theorem tasksUpTo_length (judge : Judge) (qa_a qa_b : List QA) (n : Nat) :
    (tasksUpTo judge qa_a qa_b n).length = 2 * n := by
  induction n with
  | zero => simp [tasksUpTo]
  | succ m ih =>
    rw [tasksUpTo_succ]
    simp only [List.length_append, ih, List.length_cons, List.length_nil]
    omega

theorem tasksUpTo_map_index (judge : Judge) (qa_a qa_b : List QA) (n : Nat) :
    (tasksUpTo judge qa_a qa_b n).map (fun r => (r.i, r.swapped)) =
      (List.range n).flatMap fun i => [(i, false), (i, true)] := by
  induction n with
  | zero => simp [tasksUpTo]
  | succ m ih =>
    rw [tasksUpTo_succ, List.range_succ, List.flatMap_append]
    simp [ih, runRound_i, runRound_swapped]

/-! ### Claim theorems -/

/-- C1: for every successful judge call, the realized score passed to the
rating update for A is 1.0/0.5/0.0 for judge winner A/Tie/B in natural
order and 0.0/1.0/0.5 for judge winner A/B/Tie in swapped order (with the
remapped real winner recorded), and in both orders the update is
`update(A, B, score)` in the original (A, B) naming. -/
theorem realized_scores_per_order (ctx : Ctx) (st : EvalState) (i : Nat)
    (w : Winner) (ex : String) :
    (processOne ctx st ⟨i, false, some ⟨w, ex⟩, none⟩).trace =
      st.trace ++ [⟨ctx.name_a, ctx.name_b,
        (match w with | .A => 1 | .Tie => 1 / 2 | .B => 0)⟩] ∧
    (processOne ctx st ⟨i, true, some ⟨w, ex⟩, none⟩).trace =
      st.trace ++ [⟨ctx.name_a, ctx.name_b,
        (match w with | .A => 0 | .B => 1 | .Tie => 1 / 2)⟩] ∧
    ((processOne ctx st ⟨i, true, some ⟨w, ex⟩, none⟩).results.map
        CompResult.real_winner) =
      st.results.map CompResult.real_winner ++
        [some (match w with | .A => "B" | .B => "A" | .Tie => "Tie")] := by
  cases w <;> simp [processOne, truthyErr, scoreFromWinner]

/-- C5: when a judge call fails, the canonical-order loop logs the failure
(naming the pair in presentation order, the question id and the order) and
skips it: no rating update, no result entry, and processing of the remaining
entries continues. -/
theorem judge_failure_skipped (ctx : Ctx) (st : EvalState) (i : Nat) (sw : Bool)
    (e : String) (rest : List RoundResult) :
    processRounds ctx st (⟨i, sw, none, some e⟩ :: rest) =
      processRounds ctx
        { st with logs := st.logs ++
            [.scoringFailed (if sw then ctx.name_b else ctx.name_a)
              (if sw then ctx.name_a else ctx.name_b)
              (if sw then (qaGet ctx.qa_b i).question_id
               else (qaGet ctx.qa_a i).question_id) sw (some e)] } rest ∧
    (processOne ctx st ⟨i, sw, none, some e⟩).trace = st.trace ∧
    (processOne ctx st ⟨i, sw, none, some e⟩).results = st.results := by
  refine ⟨?_, by simp [processOne], by simp [processOne]⟩
  show (⟨i, sw, none, some e⟩ :: rest).foldl (processOne ctx) st = _
  rw [List.foldl_cons]
  simp [processOne, processRounds]

/-- C2: whatever the completion order of the concurrent judge calls, the
fan-in sort restores the canonical order (question index ascending, natural
before swapped), so two runs over the same inputs with the same deterministic
judge produce identical comparison results, rating-update traces and logs. -/
theorem fan_in_deterministic (judge : Judge) (ctx : Ctx) (st : EvalState)
    (l1 l2 : List RoundResult)
    (h1 : l1.Perm (taskResults judge ctx.qa_a ctx.qa_b))
    (h2 : l2.Perm (taskResults judge ctx.qa_a ctx.qa_b)) :
    sortRounds l1 = taskResults judge ctx.qa_a ctx.qa_b ∧
    runPairwiseFrom ctx st l1 = runPairwiseFrom ctx st l2 := by
  have e1 := sortRounds_eq_taskResults h1
  have e2 := sortRounds_eq_taskResults h2
  refine ⟨e1, ?_⟩
  unfold runPairwiseFrom
  rw [e1, e2]

/-- C3: the scheduler compares exactly `min(m, n)` aligned questions with
two judge calls each (natural before swapped per index), warns exactly when
the lengths differ, and for lengths 5 and 3 issues 6 calls over 3 questions. -/
theorem scheduler_truncates_to_min (judge : Judge) (name_a name_b : String)
    (qa_a qa_b : List QA) :
    (taskResults judge qa_a qa_b).length = 2 * min qa_a.length qa_b.length ∧
    ((taskResults judge qa_a qa_b).map fun r => (r.i, r.swapped)) =
      ((List.range (min qa_a.length qa_b.length)).flatMap fun i =>
        [(i, false), (i, true)]) ∧
    (mismatchWarning name_a name_b qa_a qa_b ≠ [] ↔ qa_a.length ≠ qa_b.length) ∧
    (taskResults judge (List.replicate 5 ⟨"1", "q", "r"⟩)
        (List.replicate 3 ⟨"1", "q", "r"⟩)).length = 6 ∧
    ((taskResults judge (List.replicate 5 ⟨"1", "q", "r"⟩)
        (List.replicate 3 ⟨"1", "q", "r"⟩)).map fun r => (r.i, r.swapped)) =
      [(0, false), (0, true), (1, false), (1, true), (2, false), (2, true)] := by
  have h35 : taskResults judge (List.replicate 5 ⟨"1", "q", "r"⟩)
      (List.replicate 3 ⟨"1", "q", "r"⟩) =
      tasksUpTo judge (List.replicate 5 ⟨"1", "q", "r"⟩)
        (List.replicate 3 ⟨"1", "q", "r"⟩) 3 := by
    unfold taskResults
    norm_num
  refine ⟨tasksUpTo_length judge qa_a qa_b _, tasksUpTo_map_index judge qa_a qa_b _,
    ?_, ?_, ?_⟩
  · unfold mismatchWarning
    by_cases h : qa_a.length ≠ qa_b.length <;> simp [h]
  · rw [h35, tasksUpTo_length]
  · rw [h35, tasksUpTo_map_index]
    rfl

/-- C10: a successful swapped-order call is logged in presentation order —
`model_a` is B, `model_b` is A, the responses likewise swapped — and takes its
`question_id` from B's record at index `i`, while the natural-order entry
takes A's; with differing question orders the two ids differ. -/
theorem swapped_entry_presentation_order (ctx : Ctx) (st : EvalState) (i : Nat)
    (w : Winner) (ex : String) :
    (processOne ctx st ⟨i, true, some ⟨w, ex⟩, none⟩).results =
      st.results ++ [⟨(qaGet ctx.qa_b i).question_id, ctx.name_b, ctx.name_a,
        (qaGet ctx.qa_b i).response, (qaGet ctx.qa_a i).response, w, ex, true,
        some (match w with | .A => "B" | .B => "A" | .Tie => "Tie")⟩] ∧
    (processOne ctx st ⟨i, false, some ⟨w, ex⟩, none⟩).results =
      st.results ++ [⟨(qaGet ctx.qa_a i).question_id, ctx.name_a, ctx.name_b,
        (qaGet ctx.qa_a i).response, (qaGet ctx.qa_b i).response, w, ex, false,
        none⟩] ∧
    ((processOne ⟨"mA", "mB", [⟨"qidA", "q", "ra"⟩], [⟨"qidB", "q", "rb"⟩]⟩
        ⟨[], [], []⟩ ⟨0, true, some ⟨w, ex⟩, none⟩).results.map
          CompResult.question_id = ["qidB"] ∧
     (processOne ⟨"mA", "mB", [⟨"qidA", "q", "ra"⟩], [⟨"qidB", "q", "rb"⟩]⟩
        ⟨[], [], []⟩ ⟨0, false, some ⟨w, ex⟩, none⟩).results.map
          CompResult.question_id = ["qidA"] ∧
     ("qidA" : String) ≠ "qidB") := by
  cases w <;> simp [processOne, truthyErr, qaGet, scoreFromWinner]

/-! ### Concrete fixtures for witnesses and counterexamples -/

/-- A deterministic judge stub that always prefers the "Paris" answer,
whichever slot it is presented in. -/
def judgeW : Judge := fun _ a _ =>
  if a = "Paris" then .ok ⟨.A, "first is better"⟩ else .ok ⟨.B, "second is better"⟩

/-- A concrete one-question pair context for `judgeW`. -/
def ctxW : Ctx :=
  ⟨"m1", "m2", [⟨"1", "q", "Paris"⟩], [⟨"1", "q", "Berlin"⟩]⟩

/-- The natural-order round result of `judgeW` on `ctxW`. -/
def roundNat : RoundResult :=
  ⟨0, false, some ⟨.A, "first is better"⟩, none⟩

/-- The swapped-order round result of `judgeW` on `ctxW`. -/
def roundSw : RoundResult :=
  ⟨0, true, some ⟨.B, "second is better"⟩, none⟩

/-- Witness for C2 at a concrete input: the reversed completion order sorts
back to the canonical task list and yields the same processing outcome. -/
theorem fan_in_deterministic_witness :
    sortRounds [roundSw, roundNat] = taskResults judgeW ctxW.qa_a ctxW.qa_b ∧
    runPairwiseFrom ctxW ⟨[], [], []⟩ [roundSw, roundNat] =
      runPairwiseFrom ctxW ⟨[], [], []⟩ [roundNat, roundSw] :=
  fan_in_deterministic judgeW ctxW ⟨[], [], []⟩ [roundSw, roundNat]
    [roundNat, roundSw] (by decide) (by decide)

/-! ### Loader lemmas -/

/-- Whether a line is structurally unparsable. -/
def isInvalid : Line → Bool
  | .invalid _ => true
  | _ => false

theorem loadLines_abort (pre : List Line) :
    ∀ (file : String) (ln : Nat) (msg : String) (rest : List Line),
      (∀ l ∈ pre, isInvalid l = false) →
      loadLines file ln (pre ++ .invalid msg :: rest) = .error ⟨file, ln + pre.length, msg⟩ := by
  induction pre with
  | nil =>
    intro file ln msg rest _
    simp [loadLines]
  | cons l pre ih =>
    intro file ln msg rest h
    have hl : isInvalid l = false := h l (List.mem_cons_self l pre)
    have hpre : ∀ x ∈ pre, isInvalid x = false := fun x hx => h x (List.mem_cons_of_mem l hx)
    cases l with
    | blank =>
      rw [List.cons_append, loadLines, ih file (ln + 1) msg rest hpre]
      simp only [List.length_cons]
      congr 2
      omega
    | invalid m => simp [isInvalid] at hl
    | record qid q resp =>
      rw [List.cons_append, loadLines]
      by_cases hc : fieldStr qid = "" ∨ fieldStr q = "" ∨ fieldStr resp = ""
      · rw [if_pos hc, ih file (ln + 1) msg rest hpre]
        simp only [Except.map, List.length_cons]
        congr 2
        omega
      · rw [if_neg hc, ih file (ln + 1) msg rest hpre]
        simp only [Except.map, List.length_cons]
        congr 2
        omega

theorem loadLines_ok_of_no_invalid (lines : List Line) :
    ∀ (file : String) (ln : Nat), (∀ l ∈ lines, isInvalid l = false) →
      ∃ qas ws, loadLines file ln lines = .ok (qas, ws) := by
  induction lines with
  | nil =>
    intro file ln _
    exact ⟨[], [], rfl⟩
  | cons l rest ih =>
    intro file ln h
    have hl : isInvalid l = false := h l (List.mem_cons_self l rest)
    have hrest : ∀ x ∈ rest, isInvalid x = false := fun x hx => h x (List.mem_cons_of_mem l hx)
    cases l with
    | blank =>
      rcases ih file (ln + 1) hrest with ⟨qas, ws, hok⟩
      exact ⟨qas, ws, by rw [loadLines, hok]⟩
    | invalid m => simp [isInvalid] at hl
    | record qid q resp =>
      rcases ih file (ln + 1) hrest with ⟨qas, ws, hok⟩
      rw [loadLines]
      by_cases hc : fieldStr qid = "" ∨ fieldStr q = "" ∨ fieldStr resp = ""
      · rw [if_pos hc, hok]
        exact ⟨qas, .loadSkipped file ln :: ws, rfl⟩
      · rw [if_neg hc, hok]
        exact ⟨⟨fieldStr qid, fieldStr q, fieldStr resp⟩ :: qas, ws, rfl⟩

theorem loadLines_ok_fields (lines : List Line) :
    ∀ (file : String) (ln : Nat) (qas : List QA) (ws : List LogMsg),
      loadLines file ln lines = .ok (qas, ws) →
      ∀ qa ∈ qas, qa.question_id ≠ "" ∧ qa.question ≠ "" ∧ qa.response ≠ "" := by
  induction lines with
  | nil =>
    intro file ln qas ws h qa hqa
    rw [loadLines] at h
    cases h
    exact absurd hqa (List.not_mem_nil qa)
  | cons l rest ih =>
    intro file ln qas ws h qa hqa
    cases l with
    | blank =>
      rw [loadLines] at h
      exact ih file (ln + 1) qas ws h qa hqa
    | invalid m =>
      rw [loadLines] at h
      cases h
    | record qid q resp =>
      rw [loadLines] at h
      by_cases hc : fieldStr qid = "" ∨ fieldStr q = "" ∨ fieldStr resp = ""
      · rw [if_pos hc] at h
        cases hrec : loadLines file (ln + 1) rest with
        | error e =>
          rw [hrec] at h
          cases h
        | ok p =>
          rw [hrec] at h
          cases h
          exact ih file (ln + 1) p.1 p.2 (by rw [hrec]) qa hqa
      · rw [if_neg hc] at h
        cases hrec : loadLines file (ln + 1) rest with
        | error e =>
          rw [hrec] at h
          cases h
        | ok p =>
          rw [hrec] at h
          cases h
          push_neg at hc
          rcases List.mem_cons.mp hqa with h1 | h2
          · rw [h1]
            exact ⟨hc.1, hc.2.1, hc.2.2⟩
          · exact ih file (ln + 1) p.1 p.2 (by rw [hrec]) qa h2

/-- C4: an unparsable line aborts the whole load with an error naming the
file and the 1-based line number; a parseable line with a missing or empty
field is skipped with a warning and loading continues (a file without
unparsable lines always loads); every record of a successful load has all
three fields non-empty. -/
theorem loader_error_handling :
    (∀ (file msg : String) (pre rest : List Line), (∀ l ∈ pre, isInvalid l = false) →
      loadModelOutputs file (pre ++ .invalid msg :: rest) =
        .error ⟨file, pre.length + 1, msg⟩) ∧
    (∀ (file : String) (ln : Nat) (qid q resp : Option String) (rest : List Line),
      (fieldStr qid = "" ∨ fieldStr q = "" ∨ fieldStr resp = "") →
      loadLines file ln (.record qid q resp :: rest) =
        (loadLines file (ln + 1) rest).map fun p => (p.1, .loadSkipped file ln :: p.2)) ∧
    (∀ (file : String) (lines : List Line), (∀ l ∈ lines, isInvalid l = false) →
      ∃ qas ws, loadModelOutputs file lines = .ok (qas, ws)) ∧
    (∀ (file : String) (lines : List Line) (qas : List QA) (ws : List LogMsg),
      loadModelOutputs file lines = .ok (qas, ws) →
      ∀ qa ∈ qas, qa.question_id ≠ "" ∧ qa.question ≠ "" ∧ qa.response ≠ "") := by
  refine ⟨?_, ?_, ?_, ?_⟩
  · intro file msg pre rest h
    rw [loadModelOutputs, loadLines_abort pre file 1 msg rest h]
    congr 2
    omega
  · intro file ln qid q resp rest h
    rw [loadLines, if_pos h]
  · intro file lines h
    exact loadLines_ok_of_no_invalid lines file 1 h
  · intro file lines qas ws h
    exact loadLines_ok_fields lines file 1 qas ws h

/-- Witness for C4 at concrete inputs: an invalid second line aborts with
line number 2; a record missing its response is skipped with a warning; an
invalid-free file loads; and the loaded records have non-empty fields. -/
theorem loader_error_handling_witness :
    loadModelOutputs "f" ([.record (some "1") (some "q") (some "r")] ++
        .invalid "bad" :: []) = .error ⟨"f", 2, "bad"⟩ ∧
    loadLines "f" 1 (.record (some "1") (some "q") none :: []) =
      (loadLines "f" 2 []).map (fun p => (p.1, .loadSkipped "f" 1 :: p.2)) ∧
    (∃ qas ws, loadModelOutputs "f" [.record (some "1") (some "q") (some "r")] =
      .ok (qas, ws)) ∧
    (∀ qa ∈ [QA.mk "1" "q" "r"],
      qa.question_id ≠ "" ∧ qa.question ≠ "" ∧ qa.response ≠ "") :=
  ⟨loader_error_handling.1 "f" "bad" [.record (some "1") (some "q") (some "r")] []
      (by decide),
   loader_error_handling.2.1 "f" 1 (some "1") (some "q") none [] (by decide),
   loader_error_handling.2.2.1 "f" [.record (some "1") (some "q") (some "r")]
      (by decide),
   loader_error_handling.2.2.2 "f" [.record (some "1") (some "q") (some "r")]
      [QA.mk "1" "q" "r"] [] rfl⟩

/-- A JSONL input with two records sharing the same `question_id`. -/
def dupLines : List Line :=
  [.record (some "1") (some "q") (some "r"),
   .record (some "1") (some "q2") (some "r2")]

/-- Counterexample to C9: the loader keeps both records with the duplicate
`question_id` "1", so uniqueness does not hold for the loaded sequence. -/
theorem question_id_unique_cex :
    loadModelOutputs "m" dupLines =
      .ok ([⟨"1", "q", "r"⟩, ⟨"1", "q2", "r2"⟩], []) ∧
    ¬ ([QA.mk "1" "q" "r", QA.mk "1" "q2" "r2"].Pairwise
        fun x y => x.question_id ≠ y.question_id) :=
  ⟨rfl, by decide⟩

/-- C9 (amended): every loaded record has a non-empty `question_id`, but the
loader enforces no uniqueness — a participant's loaded sequence can contain
several records with the same `question_id`. -/
theorem question_id_nonempty_not_unique :
    (∀ (file : String) (lines : List Line) (qas : List QA) (ws : List LogMsg),
      loadModelOutputs file lines = .ok (qas, ws) →
      ∀ qa ∈ qas, qa.question_id ≠ "") ∧
    (∃ (file : String) (lines : List Line) (qas : List QA) (ws : List LogMsg),
      loadModelOutputs file lines = .ok (qas, ws) ∧
        ¬ qas.Pairwise fun x y => x.question_id ≠ y.question_id) := by
  constructor
  · intro file lines qas ws h qa hqa
    exact (loadLines_ok_fields lines file 1 qas ws h qa hqa).1
  · exact ⟨"m", dupLines, [⟨"1", "q", "r"⟩, ⟨"1", "q2", "r2"⟩], [], rfl, by decide⟩

/-- Witness for the amended C9 at a concrete input. -/
theorem question_id_nonempty_not_unique_witness :
    (∀ qa ∈ [QA.mk "1" "q" "r", QA.mk "1" "q2" "r2"], qa.question_id ≠ "") ∧
    (∃ (file : String) (lines : List Line) (qas : List QA) (ws : List LogMsg),
      loadModelOutputs file lines = .ok (qas, ws) ∧
        ¬ qas.Pairwise fun x y => x.question_id ≠ y.question_id) :=
  ⟨question_id_nonempty_not_unique.1 "m" dupLines
      [QA.mk "1" "q" "r", QA.mk "1" "q2" "r2"] [] rfl,
   question_id_nonempty_not_unique.2⟩

/-- A judge whose call raises an unexpected error whenever the first
presented response is "ra", and succeeds otherwise. -/
def judgeFail : Judge := fun _ a _ =>
  if a = "ra" then .error "AttributeError: unexpected contract violation"
  else .ok ⟨.A, "ok"⟩

/-- Counterexample to C6: with one task's judge call raising an unexpected
error and the sibling succeeding, the pair's processing completes normally
(nothing is re-raised) and the sibling's rating update and result entry ARE
applied — partial results are kept, not discarded. -/
theorem unexpected_error_not_cancelling_cex :
    runPairwise judgeFail "m1" [⟨"1", "q", "ra"⟩] "m2" [⟨"1", "q", "rb"⟩]
        ⟨[], [], []⟩ =
      ⟨[⟨"1", "m2", "m1", "rb", "ra", .A, "ok", true, some "B"⟩],
       [⟨"m1", "m2", 0⟩],
       [.scoringFailed "m1" "m2" "1" false
          (some "AttributeError: unexpected contract violation")]⟩ := by
  rw [runPairwise_eq]
  decide

/-- C6 (amended): any error raised by a judge call — expected or not — is
caught inside its own task and returned as a failed round result; the
canonical-order loop then logs it and continues with the remaining rounds of
the pair, whose updates and results are still applied. -/
theorem errors_caught_per_task (judge : Judge) (qa_a qa_b : List QA) (i : Nat)
    (sw : Bool) (e : String) (ctx : Ctx) (st : EvalState)
    (rest : List RoundResult)
    (h : judgeCall judge qa_a qa_b i sw = .error e) :
    runRound judge qa_a qa_b i sw = ⟨i, sw, none, some e⟩ ∧
    processRounds ctx st (⟨i, sw, none, some e⟩ :: rest) =
      processRounds ctx (processOne ctx st ⟨i, sw, none, some e⟩) rest := by
  constructor
  · unfold runRound
    rw [h]
  · rfl

/-- Witness for the amended C6 at a concrete input. -/
theorem errors_caught_per_task_witness :
    runRound judgeFail [⟨"1", "q", "ra"⟩] [⟨"1", "q", "rb"⟩] 0 false =
      ⟨0, false, none, some "AttributeError: unexpected contract violation"⟩ ∧
    processRounds ctxW ⟨[], [], []⟩
        (⟨0, false, none, some "AttributeError: unexpected contract violation"⟩ ::
          [roundSw]) =
      processRounds ctxW
        (processOne ctxW ⟨[], [], []⟩
          ⟨0, false, none, some "AttributeError: unexpected contract violation"⟩)
        [roundSw] :=
  errors_caught_per_task judgeFail [⟨"1", "q", "ra"⟩] [⟨"1", "q", "rb"⟩] 0 false
    "AttributeError: unexpected contract violation" ctxW ⟨[], [], []⟩ [roundSw] rfl

/-- The exit behavior of `main`: `asyncio.run` re-raises a propagated
exception (non-zero exit), a normal return exits zero. -/
def exitsNonZero (r : Except LoadError RunOutput) : Bool :=
  match r with
  | .error _ => true
  | .ok _ => false

/-- A judge stub that always succeeds with winner "A". -/
def judgeOK : Judge := fun _ _ _ => .ok ⟨.A, "e"⟩

/-- A run environment with only one participant file and a stale report
directory. -/
def envOne : RunEnv :=
  ⟨true, [("m1", [.record (some "1") (some "q") (some "r")])],
   some [("stale.jsonl", .eloHistory [])]⟩

/-- Counterexample to C7: with fewer than two input files the run logs the
condition and returns normally — `main` exits zero, not non-zero. -/
theorem fewer_than_two_graceful_cex :
    processEvaluations judgeOK envOne =
      .ok ⟨some [], ⟨[], [], [.fewerThanTwo]⟩⟩ ∧
    exitsNonZero (processEvaluations judgeOK envOne) = false :=
  ⟨rfl, rfl⟩

/-- C7 (amended): with fewer than two participant files the run reports the
condition and ends gracefully (exit zero) without writing any leaderboard,
comparison-log or rating-history artifact; the report directory has already
been cleared and recreated empty. -/
theorem fewer_than_two_graceful (judge : Judge) (env : RunEnv)
    (h1 : env.input_is_dir = true) (h2 : env.files.length < 2) :
    processEvaluations judge env =
      .ok ⟨env.report_dir.map fun _ => [], ⟨[], [], [.fewerThanTwo]⟩⟩ ∧
    exitsNonZero (processEvaluations judge env) = false := by
  have h : processEvaluations judge env =
      .ok ⟨env.report_dir.map fun _ => [], ⟨[], [], [.fewerThanTwo]⟩⟩ := by
    unfold processEvaluations
    rw [h1]
    simp [h2]
  refine ⟨h, ?_⟩
  rw [h]
  rfl

/-- Witness for the amended C7 at a concrete input. -/
theorem fewer_than_two_graceful_witness :
    processEvaluations judgeOK envOne =
      .ok ⟨envOne.report_dir.map fun _ => [], ⟨[], [], [.fewerThanTwo]⟩⟩ ∧
    exitsNonZero (processEvaluations judgeOK envOne) = false :=
  fewer_than_two_graceful judgeOK envOne rfl (by decide)

/-- C8: with a report directory given, the run's outcome is independent of
whatever the directory held before (it is cleared and recreated at the
start), and whenever the run returns normally the directory holds either
nothing (early bail-out) or exactly the three artifacts of this run. -/
theorem report_dir_fresh (judge : Judge) (env : RunEnv) (d0 d1 : ReportDir) :
    processEvaluations judge { env with report_dir := some d0 } =
      processEvaluations judge { env with report_dir := some d1 } ∧
    (∀ out, processEvaluations judge { env with report_dir := some d0 } = .ok out →
      out.reportDir = some [] ∨
      out.reportDir = some
        [("pairwise_results.jsonl", .pairwiseResults out.state.results),
         ("elo_history.jsonl", .eloHistory out.state.trace),
         ("leaderboard.json", .leaderboard out.state.trace)]) := by
  constructor
  · rfl
  · intro out h
    unfold processEvaluations at h
    split at h
    · cases h
      exact Or.inl rfl
    · split at h
      · cases h
        exact Or.inl rfl
      · split at h
        · exact absurd h (by simp)
        · cases h
          exact Or.inr rfl

/-- Witness for C8 at a concrete input: a stale report directory does not
change the run's outcome, and the bail-out leaves the directory empty. -/
theorem report_dir_fresh_witness :
    (processEvaluations judgeOK
        { envOne with report_dir := some [("stale.jsonl", .eloHistory [])] } =
      processEvaluations judgeOK { envOne with report_dir := some [] }) ∧
    ((⟨some [], ⟨[], [], [.fewerThanTwo]⟩⟩ : RunOutput).reportDir = some [] ∨
     (⟨some [], ⟨[], [], [.fewerThanTwo]⟩⟩ : RunOutput).reportDir = some
        [("pairwise_results.jsonl",
          .pairwiseResults (⟨some [], ⟨[], [], [.fewerThanTwo]⟩⟩ : RunOutput).state.results),
         ("elo_history.jsonl",
          .eloHistory (⟨some [], ⟨[], [], [.fewerThanTwo]⟩⟩ : RunOutput).state.trace),
         ("leaderboard.json",
          .leaderboard (⟨some [], ⟨[], [], [.fewerThanTwo]⟩⟩ : RunOutput).state.trace)]) :=
  ⟨(report_dir_fresh judgeOK envOne [("stale.jsonl", .eloHistory [])] []).1,
   (report_dir_fresh judgeOK envOne [("stale.jsonl", .eloHistory [])] []).2
      ⟨some [], ⟨[], [], [.fewerThanTwo]⟩⟩ rfl⟩

end EvalMain
